import Mathlib

/-!
Verification development for the ragFirst document-ingestion pipeline.

The Python sources are shallowly embedded: pure fragments become Lean
functions, external effects (the PDF library, the vision/captioning LLM,
the tokenizer, the thread pool) become explicit parameters or oracles,
and a Python `raise` is modelled with `Except` / an explicit failure
channel.  Machine integers do not overflow in any modelled code path, so
Python ints are `Nat`/`Int` and the float constants of the progress logic
are modelled as exact rationals (`ℚ`); every comparison the claims test
is between short decimal constants whose float and rational orderings
agree.

The file is organised as: all definitions (the embedding, then concrete
inputs used by witnesses and counterexamples), then all theorems.
-/

set_option autoImplicit false

namespace RagFirst

/-! ### String helpers mirroring the Python builtins used by the sources

Python `len` on `str` counts code points, as does `String.length` on Lean
strings.  `str.find` returns the first character index of a substring, or
`-1`; it is modelled as an `Option Nat`. -/

/-- Python `str.strip()`: drop leading and trailing whitespace (same
semantics as `String.trim`, restated structurally so it evaluates by
kernel reduction). -/
def pyStrip (s : String) : String :=
  String.mk
    (((s.toList.dropWhile Char.isWhitespace).reverse.dropWhile
        Char.isWhitespace).reverse)

/-- Python `str.lower()` restricted to the ASCII range, which is exact for
every string the modelled code compares (the table-indicator keywords and
the filter examples contain only ASCII letters besides `€` and `%`,
which `lower` leaves unchanged). -/
def strLower (s : String) : String :=
  String.mk (s.toList.map Char.toLower)

/-- First character index at which `needle` occurs in `hay`, scanning left
to right: Python `hay.find(needle)` with `-1` rendered as `none`. -/
def strFindFrom : List Char → List Char → Nat → Option Nat
  | hay, needle, i =>
    if needle.isPrefixOf hay then some i
    else
      match hay with
      | [] => none
      | _ :: t => strFindFrom t needle (i + 1)

/-- Python `hay.find(needle)` (character indices, `none` for `-1`). -/
def strFind (hay needle : String) : Option Nat :=
  strFindFrom hay.toList needle.toList 0

/-- Python `needle in hay` on strings: `needle` occurs as a contiguous
substring of `hay` (character-level). -/
def strContainsSub (hay needle : String) : Bool :=
  (strFind hay needle).isSome

/-! ### SimpleChunker (src/simple_chunker.py)

The tokenizer (`tiktoken` `cl100k_base`) is an external collaborator
(spec §6: a fixed opaque encode/decode pair); it is modelled as explicit
`encode`/`decode` parameters with tokens as `Nat`.

The `while start_idx < len(tokens)` loop of `chunk_text` is embedded with
explicit fuel, because for degenerate parameters (`chunk_size = 0`,
`overlap_size = 0`) the Python loop genuinely diverges; `none` means the
fuel ran out before the loop exited.

A note on `start_idx = end_idx - self.overlap_size`: in Python this can go
negative, but then the following guard `start_idx <= chunk_index *
overlap_size` always fires (its right side is ≥ 0) and resets
`start_idx = end_idx`.  With `Nat` truncated subtraction the guard fires
in exactly the same situations (`0 ≤ _` always holds), so the `Nat`
embedding agrees with the Python semantics on all natural inputs. -/

namespace SimpleChunker

/-- One chunk dict as built by `SimpleChunker`.  Optional fields model
dict keys that are only present on some code paths. -/
structure Chunk where
  text : String
  chunk_index : Nat
  start_token : Nat
  end_token : Nat
  token_count : Nat
  source_document : Option String := none
  page_number : Option Nat := none
  page_type : Option String := none
  processing_method : Option String := none
  spans_pages : Option (List Nat) := none
  is_cross_page : Option Bool := none
  paragraph_number : Option Nat := none
deriving Repr, DecidableEq

/-- The body of `SimpleChunker.chunk_text`'s `while` loop (lines 40-69),
one constructor step per iteration.  `metadata` is the optional
`source_document` entry merged into each chunk dict (`chunk_data.update
(metadata)`), the only metadata the live call sites pass. -/
def chunk_loop (chunk_size overlap_size : Nat) (decode : List Nat → String)
    (metadata : Option String) (tokens : List Nat) :
    Nat → Nat → Nat → Option (List Chunk)
  | 0, _, _ => none
  | fuel + 1, start_idx, chunk_index =>
    if start_idx < tokens.length then
      let end_idx := min (start_idx + chunk_size) tokens.length
      let chunk_tokens := (tokens.drop start_idx).take (end_idx - start_idx)
      let c : Chunk :=
        { text := decode chunk_tokens
          chunk_index := chunk_index
          start_token := start_idx
          end_token := end_idx
          token_count := chunk_tokens.length
          source_document := metadata }
      let s1 := end_idx - overlap_size
      let s2 := if s1 ≤ (chunk_index + 1) * overlap_size then end_idx else s1
      match chunk_loop chunk_size overlap_size decode metadata tokens fuel
          s2 (chunk_index + 1) with
      | some rest => some (c :: rest)
      | none => none
    else
      some []

/-- `SimpleChunker.chunk_text` (lines 19-71): empty or whitespace-only
text yields no chunks; otherwise the windowing loop runs over
`encode text`. -/
def chunk_text (chunk_size overlap_size : Nat) (encode : String → List Nat)
    (decode : List Nat → String) (fuel : Nat) (text : String)
    (metadata : Option String) : Option (List Chunk) :=
  if pyStrip text = "" then some []
  else chunk_loop chunk_size overlap_size decode metadata (encode text) fuel 0 0

end SimpleChunker

/-! ### PDFAnalyzer (src/pdf_analyzer.py)

The pdfplumber page handle is embedded as the data `classify_page`
observes: the result of `page.extract_text()` (possibly `None`), the
length of `page.chars` (pdfplumber pages always carry a `chars`
attribute, so the `hasattr` test in the source is always true and only
`len(page.chars) > 0` matters), image count and dimensions.  A page whose
probe raises inside `classify_page` is modelled by the `classify_raises`
channel consumed by `analyze_document`'s `try/except`. -/

namespace PDFAnalyzer

/-- Default `min_text_threshold` of `PDFAnalyzer.__init__`. -/
def default_min_text_threshold : Nat := 50

/-- What `classify_page` reads off a pdfplumber page object. -/
structure PlumberPage where
  page_number : Nat
  extract_text : Option String
  chars : Nat
  images : Nat
  width : Nat
  height : Nat
deriving Repr, DecidableEq

/-- One page as handed to `analyze_document`: the observable page data
plus the failure channel for a probe that raises. -/
structure RawPage where
  extract_text : Option String := none
  chars : Nat := 0
  images : Nat := 0
  width : Nat := 0
  height : Nat := 0
  classify_raises : Option String := none
deriving Repr, DecidableEq

instance : Inhabited RawPage := ⟨{}⟩

/-- The classification dict.  Optional fields model keys present only on
some code paths: the `except` branch of `analyze_document` builds an
entry with only `page_number`, `classification`, `error`, `confidence`. -/
structure PageInfo where
  page_number : Nat
  width : Option Nat := none
  height : Option Nat := none
  text_length : Option Nat := none
  has_images : Option Bool := none
  has_chars : Option Bool := none
  classification : String
  confidence : ℚ
  reason : Option String := none
  error : Option String := none
deriving Repr, DecidableEq

instance : Inhabited PageInfo :=
  ⟨{ page_number := 0, classification := "", confidence := 0 }⟩

/-- `PDFAnalyzer.classify_page` (lines 18-61). -/
def classify_page (min_text_threshold : Nat) (page : PlumberPage) : PageInfo :=
  let text := page.extract_text.getD ""
  let text_length := (pyStrip text).length
  let base : PageInfo :=
    { page_number := page.page_number
      width := some page.width
      height := some page.height
      text_length := some text_length
      has_images := some (page.images > 0)
      has_chars := some (page.chars > 0)
      classification := ""
      confidence := 0 }
  if text_length < min_text_threshold then
    { base with
      classification := "scanned"
      confidence := if text_length = 0 then 9/10 else 7/10
      reason := some s!"Text length ({text_length}) below threshold ({min_text_threshold})" }
  else if page.chars > 0 then
    { base with
      classification := "native"
      confidence := 19/20
      reason := some "Has character-level information" }
  else
    { base with
      classification := "native"
      confidence := 3/5
      reason := some "Has text but uncertain if OCR or native" }

/-- The page handle `analyze_document` passes to `classify_page`:
pdfplumber numbers `pdf.pages` so that `pages[i].page_number = i + 1`,
matching `enumerate(pdf.pages, 1)`. -/
def toPlumberPage (page_number : Nat) (pg : RawPage) : PlumberPage :=
  { page_number := page_number
    extract_text := pg.extract_text
    chars := pg.chars
    images := pg.images
    width := pg.width
    height := pg.height }

/-- The `except` entry of `analyze_document` (lines 84-91): note the
message lands under the `error` key and no `reason`/`text_length` keys
are written. -/
def errorEntry (page_num : Nat) (e : String) : PageInfo :=
  { page_number := page_num
    classification := "error"
    error := some e
    confidence := 0 }

/-- The `for page_num, page in enumerate(pdf.pages, 1)` loop of
`analyze_document`, carrying the running page number. -/
def analyze_go (min_text_threshold page_num : Nat) :
    List RawPage → List PageInfo
  | [] => []
  | pg :: rest =>
    (match pg.classify_raises with
      | some e => errorEntry page_num e
      | none => classify_page min_text_threshold (toPlumberPage page_num pg)) ::
    analyze_go min_text_threshold (page_num + 1) rest

/-- `PDFAnalyzer.analyze_document` (lines 63-93). -/
def analyze_document (min_text_threshold : Nat) (doc : List RawPage) :
    List PageInfo :=
  analyze_go min_text_threshold 1 doc

end PDFAnalyzer

/-! ### NativePDFProcessor table filtering (src/native_pdf_processor.py)

Two distinct false-positive filters exist in the source.
`process_native_page` (lines 66-91) inlines its own filter over the
detected tables: any table with more than one row that is single-column
with at most 2 rows is skipped unconditionally.  The helper
`_extract_tables` (lines 165-215) carries the numeric/currency escape
hatch (`['total', 'somme', '€', '%', 'nombre']`, or ≥ 100 chars of cell
text) — but no code in the repository calls `_extract_tables`; the page's
`tables` list is the inline-filtered one.

A detected table is embedded as its `table.extract()` result: a list of
rows of optional cell strings (pdfplumber cells may be `None`).  The
retained-table dicts additionally carry `html`, `description` and bbox
fields derived from the same rows; no claim observes them, so the filter
output is modelled as the list of retained row-tables. -/

namespace NativePDFProcessor

/-- A `table.extract()` result: rows of optional cell text. -/
abbrev Rows := List (List (Option String))

/-- Python `max(len(row) for row in extracted)` (callers guarantee
`extracted` is non-empty, where Python's `max` would raise). -/
def maxCols (rows : Rows) : Nat :=
  (rows.map List.length).foldl Nat.max 0

/-- The inline filter of `process_native_page` (lines 66-91): keep a
detected table iff it has more than one row and is not
(single-column ∧ ≤ 2 rows); the result is the page's `tables` list. -/
def process_native_page_tables (detected : List Rows) : List Rows :=
  detected.filter fun extracted =>
    decide (1 < extracted.length) &&
      !(decide (maxCols extracted = 1) && decide (extracted.length ≤ 2))

/-- Table indicators of `_extract_tables` line 194. -/
def tableIndicators : List String := ["total", "somme", "€", "%", "nombre"]

/-- The filter of the (uncalled) helper `_extract_tables` (lines
172-195): truthy rows required; a single-column ≤ 2-row detection is kept
only when its joined truthy cell text reaches 100 characters or contains
a numeric/currency/table keyword. -/
def extract_tables_keep (extracted : Rows) : Bool :=
  if extracted.isEmpty || !(extracted.any fun row => !row.isEmpty) then
    false
  else
    let num_rows := extracted.length
    let num_cols := if extracted.isEmpty then 0 else maxCols extracted
    if num_cols = 1 && num_rows ≤ 2 then
      let total_text :=
        String.intercalate " "
          ((extracted.flatten.filterMap id).filter (· ≠ ""))
      !(total_text.length < 100 &&
        !(tableIndicators.any fun ind => strContainsSub (strLower total_text) ind))
    else
      true

/-- The retained tables of the `_extract_tables` helper. -/
def extract_tables (detected : List Rows) : List Rows :=
  detected.filter extract_tables_keep

end NativePDFProcessor

/-! ### UnifiedDocumentProcessor (src/unified_document_processor.py)

External effects are oracles: the vision call behind
`_process_scanned_page` and the native-extraction call behind
`_process_native_page` either return a result dict or raise, per page
number.  The thread pool is modelled by the order in which workers
complete: each worker writes its result into the pre-sized
`page_results = [None] * n` list at its own index, so a run is a fold of
index-writes over a completion order (a permutation of `0..n-1`, since
every submitted future completes exactly once).  The progress callback is
recorded as the list of fractions passed to it, in call order; callbacks
are modelled as non-raising observers.  `processing_time` (wall clock)
and the per-callback message strings are not modelled — no claim observes
them.

One consequence of `max_workers = min(5, len(page_classifications))` is
modelled explicitly: for a zero-page document Python's
`ThreadPoolExecutor(max_workers=0)` raises
`ValueError("max_workers must be greater than 0")`, which the outer
`except` of `process_document` converts into an error-status result. -/

namespace UnifiedDocumentProcessor

open PDFAnalyzer

/-- Outcome of a call into an external processor: a returned value or a
raised exception. -/
inductive PyCall (α : Type) where
  | ret (val : α)
  | raise (msg : String)
deriving Repr, DecidableEq

/-- The result dict of `VisionProcessor.process_scanned_page` as read by
`_process_scanned_page`: `status`, `text`, and the `images`/`tables`
lists (payloads opaque strings), plus an optional `error`. -/
structure VisionResult where
  status : String
  text : String := ""
  images : List String := []
  tables : List String := []
  error : Option String := none
deriving Repr, DecidableEq

/-- The result dict of `NativePDFProcessor.process_native_page` as read
by `_process_native_page`. -/
structure NativeResult where
  status : String
  merged_content : String := ""
  text_blocks : List String := []
  tables : List String := []
  images : List String := []
  error : Option String := none
deriving Repr, DecidableEq

/-- Per-page behaviour of the two external extractors. -/
structure Oracles where
  scanned_call : Nat → PyCall VisionResult
  native_call : Nat → PyCall NativeResult

/-- The per-page result dict built by `process_single_page` and its two
helpers.  Option fields model keys present only on some paths: the
pass-through branch for a classification that is neither `scanned` nor
`native` writes no `status` key, and error dicts carry no
`images`/`tables`/`processing_method` keys. -/
structure PageResult where
  page_number : Nat
  type : String
  content : String
  processing_method : Option String := none
  text_blocks : Option (List String) := none
  images : Option (List String) := none
  tables : Option (List String) := none
  status : Option String := none
  error : Option String := none
  classification : String := ""
  classification_confidence : ℚ := 0
deriving Repr, DecidableEq

/-- `UnifiedDocumentProcessor._process_scanned_page` (lines 194-230): the
vision result is repackaged; a raise or a non-success status becomes an
error-status page with empty content. -/
def process_scanned_page (o : Oracles) (page_num : Nat) : PageResult :=
  match o.scanned_call page_num with
  | .ret r =>
    if r.status = "success" then
      { page_number := page_num, type := "scanned", content := r.text,
        processing_method := some "openai_vision",
        images := some r.images, tables := some r.tables,
        status := some "success" }
    else
      { page_number := page_num, type := "scanned", content := "",
        error := some (r.error.getD "Unknown error"), status := some "error" }
  | .raise msg =>
      { page_number := page_num, type := "scanned", content := "",
        error := some msg, status := some "error" }

/-- `UnifiedDocumentProcessor._process_native_page` (lines 232-268). -/
def process_native_page (o : Oracles) (page_num : Nat) : PageResult :=
  match o.native_call page_num with
  | .ret r =>
    if r.status = "success" then
      { page_number := page_num, type := "native", content := r.merged_content,
        text_blocks := some r.text_blocks, tables := some r.tables,
        images := some r.images,
        processing_method := some "native_extraction",
        status := some "success" }
    else
      { page_number := page_num, type := "native", content := "",
        error := some (r.error.getD "Unknown error"), status := some "error" }
  | .raise msg =>
      { page_number := page_num, type := "native", content := "",
        error := some msg, status := some "error" }

/-- `process_single_page` inside `_process_pages_parallel` (lines 43-81):
dispatch on the classification string, then attach the classification and
its confidence.  The two helpers never raise (each catches internally),
so the worker's own `except` branch is unreachable. -/
def process_single_page (o : Oracles) (pc : PageInfo) : PageResult :=
  let page_num := pc.page_number
  let base :=
    if pc.classification = "scanned" then process_scanned_page o page_num
    else if pc.classification = "native" then process_native_page o page_num
    else
      { page_number := page_num, type := "error",
        error := some (pc.error.getD "Unknown classification"), content := "" }
  { base with
    classification := pc.classification
    classification_confidence := pc.confidence }

/-- Pool size: `max_workers = min(5, len(page_classifications))`. -/
def max_workers (num_pages : Nat) : Nat := min 5 num_pages

/-- Completed workers write into the pre-sized results list, each at its
own index (`page_results[idx] = page_result`), in completion order. -/
def write_results (f : Nat → PageResult) (order : List Nat)
    (init : List (Option PageResult)) : List (Option PageResult) :=
  order.foldl (fun acc i => acc.set i (some (f i))) init

/-- `_process_pages_parallel` (lines 25-103) for a given completion
order: the pre-sized `[None] * n` array after every worker has written
its own index. -/
def process_pages_parallel (o : Oracles) (pcs : List PageInfo)
    (order : List Nat) : List (Option PageResult) :=
  write_results (fun i => process_single_page o (pcs.getD i default)) order
    (List.replicate pcs.length none)

/-- The fraction reported after the `completed`-th page finishes
(`update_progress`, lines 33-41): `0.1 + 0.8 * (min(completed, total) /
total)`, capped at `0.9`. -/
def page_progress (total completed : Nat) : ℚ :=
  min (1/10 + (4/5) * (((min completed total : Nat) : ℚ) / (total : ℚ))) (9/10)

/-- The summary dict (wall-clock `processing_time` not modelled). -/
structure Summary where
  total_pages : Nat := 0
  scanned_pages : Nat := 0
  native_pages : Nat := 0
  total_images : Nat := 0
  total_tables : Nat := 0
deriving Repr, DecidableEq

/-- The document-level results dict (`processing_date` not modelled; the
`numbered_pdf_path`/`original_pdf_path` keys are added only by
`DocumentProcessor.process_pdf`). -/
structure DocumentResult where
  document_path : String
  document_name : String
  pages : List PageResult := []
  summary : Summary := {}
  status : String := "success"
  errors : List String := []
  numbered_pdf_path : Option String := none
  original_pdf_path : Option String := none
deriving Repr, DecidableEq

/-- A processing run: the returned results dict plus the fractions passed
to the progress callback, in call order. -/
structure ProcOutput where
  result : DocumentResult
  progress : List ℚ
deriving Repr, DecidableEq

/-- Python `os.path.basename` for POSIX paths. -/
def os_basename (path : String) : String :=
  String.mk ((path.toList.reverse.takeWhile (· ≠ '/')).reverse)

/-- `UnifiedDocumentProcessor.process_document` (lines 105-192).  `doc`
is the pdfplumber view of the PDF, `Except.error` when opening/analyzing
raises.  The callback fractions: `0.1` before analysis, `0.15` before
dispatch, one page fraction per completion, then `0.95` and `1.0`. -/
def process_document (pdf_path : String)
    (doc : Except String (List RawPage)) (o : Oracles) (order : List Nat) :
    ProcOutput :=
  let base : DocumentResult :=
    { document_path := pdf_path, document_name := os_basename pdf_path }
  match doc with
  | .error e =>
    { result := { base with status := "error", errors := [e] }
      progress := [1/10] }
  | .ok rawPages =>
    let cls := analyze_document default_min_text_threshold rawPages
    let n := cls.length
    let sum1 : Summary :=
      { total_pages := n
        scanned_pages := (cls.filter fun pc => pc.classification = "scanned").length
        native_pages := (cls.filter fun pc => pc.classification = "native").length }
    if n = 0 then
      { result := { base with
          summary := sum1
          status := "error"
          errors := ["max_workers must be greater than 0"] }
        progress := [1/10, 3/20] }
    else
      let written := process_pages_parallel o cls order
      let pages := written.filterMap id
      let sum2 : Summary := { sum1 with
        total_images := (pages.map fun p => (p.images.getD []).length).sum
        total_tables := (pages.map fun p => (p.tables.getD []).length).sum }
      { result := { base with pages := pages, summary := sum2 }
        progress := [1/10, 3/20] ++
          (List.range n).map (fun j => page_progress n (j + 1)) ++ [19/20, 1] }

/-- Number of pages the orchestrator will classify. -/
def docLength (doc : Except String (List RawPage)) : Nat :=
  match doc with
  | .ok rawPages => rawPages.length
  | .error _ => 0

end UnifiedDocumentProcessor

/-! ### SimpleChunker._process_with_full_concatenation
(src/simple_chunker.py lines 90-188)

`process_document_results` delegates to this method.  It consumes the
orchestrator's per-page result dicts, so the embedding reopens the
`SimpleChunker` namespace here, after `UnifiedDocumentProcessor`.  The
`_save_chunks_to_file` debugging side effect (file I/O) is not modelled —
it does not alter the returned chunks. -/

namespace SimpleChunker

/-- One entry of the `pages_content` list (lines 105-110). -/
structure PageContentInfo where
  content : String
  page_number : Nat
  page_type : String
  processing_method : String
deriving Repr, DecidableEq

instance : Inhabited PageContentInfo :=
  ⟨{ content := "", page_number := 0, page_type := "", processing_method := "" }⟩

instance : Inhabited Chunk :=
  ⟨{ text := "", chunk_index := 0, start_token := 0, end_token := 0,
     token_count := 0 }⟩

/-- The collection loop of lines 99-110: keep only pages whose `status`
key equals `"success"` and whose `content` is truthy, then strip; drop
whitespace-only content.  The `type` key is present on every page dict;
`processing_method` may be absent (error dicts), hence the
`get(..., "unknown")` default. -/
def pages_content (pages : List UnifiedDocumentProcessor.PageResult) :
    List PageContentInfo :=
  pages.filterMap fun page =>
    if page.status = some "success" ∧ page.content ≠ "" then
      let pc := pyStrip page.content
      if pc ≠ "" then
        some { content := pc
               page_number := page.page_number
               page_type := page.type
               processing_method := page.processing_method.getD "unknown" }
      else none
    else none

/-- One entry of `page_mappings` (lines 125-131). -/
structure PageMapping where
  page_number : Nat
  page_type : String
  processing_method : String
  start_char : Nat
  end_char : Nat
deriving Repr, DecidableEq

/-- The character-offset loop of lines 119-131: page `i` starts at the
running `char_pos` and its recorded `end_char` is `start + len(content)`
(`char_pos` then skips the joining space). -/
def page_mappings_go : Nat → List PageContentInfo → List PageMapping
  | _, [] => []
  | char_pos, p :: rest =>
    { page_number := p.page_number
      page_type := p.page_type
      processing_method := p.processing_method
      start_char := char_pos
      end_char := char_pos + p.content.length } ::
    page_mappings_go (char_pos + p.content.length + 1) rest

/-- `page_mappings` for the collected pages. -/
def page_mappings (ps : List PageContentInfo) : List PageMapping :=
  page_mappings_go 0 ps

/-- The per-chunk page-attachment loop of lines 142-183: locate the
chunk's 50-character text head in the full text (`start_token * 3` as the
estimate when not found), collect the overlapping page mappings, attach
the first one as primary (with `spans_pages`/`is_cross_page` when more
than one overlaps), fall back to the first collected page when none
overlaps, and set `paragraph_number = chunk_index + 1`.  The `[]`/`[]`
branch is unreachable: the caller returns early when `pages_content` is
empty. -/
def locate_chunk (full_text : String) (ps : List PageContentInfo)
    (chunk : Chunk) : Chunk :=
  let cstart := (strFind full_text
    (String.mk (chunk.text.toList.take 50))).getD (chunk.start_token * 3)
  let cend := cstart + chunk.text.length
  let chunk_pages := (page_mappings ps).filter fun pi =>
    decide (cstart < pi.end_char) && decide (cend > pi.start_char)
  match chunk_pages with
  | primary :: rest =>
    let c1 := { chunk with
      page_number := some primary.page_number
      page_type := some primary.page_type
      processing_method := some primary.processing_method }
    let c2 :=
      if rest.length + 1 > 1 then
        { c1 with
          spans_pages := some ((primary :: rest).map fun p => p.page_number)
          is_cross_page := some true }
      else { c1 with is_cross_page := some false }
    { c2 with paragraph_number := some (chunk.chunk_index + 1) }
  | [] =>
    match ps with
    | p0 :: _ =>
      { chunk with
        page_number := some p0.page_number
        page_type := some p0.page_type
        processing_method := some p0.processing_method
        is_cross_page := some false
        paragraph_number := some (chunk.chunk_index + 1) }
    | [] => { chunk with paragraph_number := some (chunk.chunk_index + 1) }

/-- `SimpleChunker._process_with_full_concatenation` (lines 90-188):
collect successful pages, space-join their stripped contents, chunk the
full text with the document name as base metadata, then attach page
metadata to every chunk.  `none` means the chunking loop ran out of
fuel. -/
def process_with_full_concatenation (chunk_size overlap_size : Nat)
    (encode : String → List Nat) (decode : List Nat → String) (fuel : Nat)
    (document_name : String)
    (pages : List UnifiedDocumentProcessor.PageResult) :
    Option (List Chunk) :=
  let ps := pages_content pages
  if ps.isEmpty then some []
  else
    let full_text := String.intercalate " " (ps.map fun p => p.content)
    (chunk_text chunk_size overlap_size encode decode fuel full_text
        (some document_name)).map
      fun chunks => chunks.map (locate_chunk full_text ps)

/-- `SimpleChunker.process_document_results` (lines 73-88): approach 1,
full concatenation. -/
def process_document_results (chunk_size overlap_size : Nat)
    (encode : String → List Nat) (decode : List Nat → String) (fuel : Nat)
    (document_name : String)
    (pages : List UnifiedDocumentProcessor.PageResult) :
    Option (List Chunk) :=
  process_with_full_concatenation chunk_size overlap_size encode decode fuel
    document_name pages

end SimpleChunker

/-! ### DocumentProcessor (src/document_processor.py)

`process_pdf` first runs `PDFPageNumberer.add_page_numbers` on the input
path; that call has no surrounding `try`, so a stamping failure
propagates as an exception out of `process_pdf` — there is no
`DocumentResult` at all in that case. -/

namespace DocumentProcessor

open UnifiedDocumentProcessor PDFAnalyzer

/-- `DocumentProcessor.process_pdf` (lines 24-49): stamping (`stamp` is
the numbered-copy path, or the exception it raises), then the unified
processor on the numbered copy, then the two path keys. -/
def process_pdf (document_path : String) (stamp : Except String String)
    (doc : Except String (List RawPage)) (o : Oracles) (order : List Nat) :
    Except String ProcOutput :=
  match stamp with
  | .error e => .error e
  | .ok numbered_pdf_path =>
    let out := process_document numbered_pdf_path doc o order
    .ok { out with result := { out.result with
            numbered_pdf_path := some numbered_pdf_path
            original_pdf_path := some document_path } }

end DocumentProcessor

/-! ### Concrete inputs used by witnesses and counterexamples -/

namespace Inputs

open PDFAnalyzer

/-- A page whose text probe returns `None` (blank scan). -/
def pgEmptyText : PlumberPage :=
  { page_number := 1, extract_text := none, chars := 0, images := 1,
    width := 612, height := 792 }

/-- Sixty characters of text, comfortably above the 50-char threshold. -/
def longText : String := String.mk (List.replicate 60 'a')

/-- A page with a little text, below the 50-char threshold. -/
def pgFewChars : PlumberPage :=
  { page_number := 2, extract_text := some "Hi", chars := 2, images := 0,
    width := 612, height := 792 }

/-- A native page with character-level records. -/
def pgNativeChars : PlumberPage :=
  { page_number := 3, extract_text := some longText, chars := 60,
    images := 0, width := 612, height := 792 }

/-- A page with text but no character-level records. -/
def pgNativeNoChars : PlumberPage :=
  { page_number := 4, extract_text := some longText, chars := 0,
    images := 0, width := 612, height := 792 }

/-- A raw page whose classification probe raises `"boom"`. -/
def pgBoom : RawPage := { classify_raises := some "boom" }

/-- A raw page that classifies as native. -/
def pgNativeRaw : RawPage := { extract_text := some longText, chars := 60 }

/-- A raw page with a little text, classifying as scanned. -/
def pgScanRaw : PDFAnalyzer.RawPage := { extract_text := some "Hi", chars := 0 }

/-- Extractor behaviour: the vision call succeeds only on page 2 and
raises `"network down"` elsewhere; the native call always succeeds. -/
def mixedOracles : UnifiedDocumentProcessor.Oracles :=
  { scanned_call := fun n =>
      if n = 2 then
        .ret { status := "success", text := "page two scan", tables := ["t1"] }
      else .raise "network down"
    native_call := fun _ =>
      .ret { status := "success", merged_content := "page one native",
             images := ["img1"] } }

/-- A classification entry routing page 1 to the vision extractor. -/
def pcScanInfo : PDFAnalyzer.PageInfo :=
  { page_number := 1, classification := "scanned", confidence := 9/10 }

/-- A classification entry routing page 2 to the native extractor. -/
def pcNativeInfo : PDFAnalyzer.PageInfo :=
  { page_number := 2, classification := "native", confidence := 19/20 }

/-- The spec's false-positive example: a 1-column, 2-row detection with
cells `["Titre", "Sous-titre"]`. -/
def titreRows : NativePDFProcessor.Rows :=
  [[some "Titre"], [some "Sous-titre"]]

/-- The spec's true-positive example: a 1-column, 2-row detection whose
cell text contains `"Total: 1500€"`. -/
def totalRows : NativePDFProcessor.Rows :=
  [[some "Montant"], [some "Total: 1500€"]]

/-- A successful native page with content `"aaaa"` (chunker pipeline
inputs). -/
def cxPageA : UnifiedDocumentProcessor.PageResult :=
  { page_number := 1, type := "native", content := "aaaa",
    processing_method := some "native_extraction", status := some "success" }

/-- A successful native page with content `"bbbb"`. -/
def cxPageB : UnifiedDocumentProcessor.PageResult :=
  { page_number := 2, type := "native", content := "bbbb",
    processing_method := some "native_extraction", status := some "success" }

/-- A tokenizer encoder assigning one token per character (the
concatenated text `"aaaa bbbb"` has 9 tokens). -/
def cxEncode (s : String) : List Nat := List.range s.length

/-- A decoder that is not character-faithful at one window — the window
`tokens[2:4]` decodes to `"XX"`, which does not occur in the document
text.  `cl100k_base` behaves this way at cut points that split a
multi-byte character, which is exactly why the source carries the
`start_token * 3` fallback. -/
def cxDecode (ts : List Nat) : String :=
  if ts = [2, 3] then "XX"
  else String.mk (ts.map fun t => "aaaa bbbb".toList.getD t '?')

end Inputs

/-! ## Theorems -/

section Theorems

open SimpleChunker PDFAnalyzer Inputs

/-! ### Claims C1 and C3: the chunking loop

Both claims concern `SimpleChunker.chunk_text`'s window loop.  Tracing the
source on 1200 tokens with `chunk_size = 500`, `overlap_size = 100`: after
the window `[800, 1200)` the loop sets `start_idx = 1200 - 100 = 1100 <
1200` and keeps iterating, re-emitting `[1100, 1200)` until the guard
`start_idx <= chunk_index * overlap_size` finally fires at
`chunk_index = 11`.  The loop never breaks when `end_idx` reaches
`len(tokens)`, so it emits 11 chunks instead of the 3 the spec scenario
expects. -/

set_option maxRecDepth 10000 in
/-- Claim C1 (code bug): on a document tokenizing to exactly 1200 tokens
with `chunk_size = 500`, `overlap_size = 100`, the chunker does NOT yield
exactly the 3 chunks `[0,500) [400,900) [800,1200)`: it yields those three
followed by eight duplicate copies of `[1100,1200)` — 11 chunks in all —
because the loop lacks a break when `end_idx` reaches `len(tokens)`.
(Each chunk's `token_count ≤ 500` and full coverage do hold.) -/
theorem c1_chunker_1200_token_scenario :
    chunk_text 500 100 (fun _ => List.range 1200) (fun _ => "") 20 "doc" none =
      chunk_loop 500 100 (fun _ => "") none (List.range 1200) 20 0 0 ∧
    ((chunk_text 500 100 (fun _ => List.range 1200) (fun _ => "") 20 "doc"
            none).getD []).map (fun c => (c.start_token, c.end_token)) =
      [(0, 500), (400, 900), (800, 1200)] ++ List.replicate 8 (1100, 1200) ∧
    ((chunk_text 500 100 (fun _ => List.range 1200) (fun _ => "") 20 "doc"
            none).getD []).length = 11 ∧
    (((chunk_text 500 100 (fun _ => List.range 1200) (fun _ => "") 20 "doc"
            none).getD []).all (fun c => c.token_count ≤ 500)) = true ∧
    11 ≠ 3 := by
  refine ⟨rfl, ?_, ?_, ?_, by decide⟩ <;> decide

set_option maxRecDepth 10000 in
/-- Claim C3 (code bug): with `overlap_size = 100 < chunk_size = 500` and
1200 tokens the loop does terminate (it exits with fuel to spare, and more
fuel does not change the result), but it emits 11 chunks, exceeding the
claimed bound `ceil(1200 / (500 - 100)) = 3`, again because the loop keeps
running after `end_idx` first reaches `len(tokens)`. -/
theorem c3_chunk_count_exceeds_ceiling_bound :
    (chunk_loop 500 100 (fun _ => "") none (List.range 1200) 20 0 0).isSome
        = true ∧
    chunk_loop 500 100 (fun _ => "") none (List.range 1200) 100 0 0 =
      chunk_loop 500 100 (fun _ => "") none (List.range 1200) 20 0 0 ∧
    ((chunk_loop 500 100 (fun _ => "") none (List.range 1200) 20 0 0).getD
        []).length = 11 ∧
    (1200 + (500 - 100) - 1) / (500 - 100) = 3 ∧
    ¬ ((11 : Nat) ≤ 3) := by
  refine ⟨?_, ?_, ?_, by decide, by decide⟩ <;> decide

/-! ### Claim C2: the table false-positive filter -/

section C2Claims

open NativePDFProcessor

/-- Counterexample for C2: the live filter in `process_native_page`
discards the 1-column 2-row `"Total: 1500€"` table too — the
numeric/currency escape only exists in the uncalled `_extract_tables`
helper, so the table is NOT retained in the page's `tables`. -/
theorem c2_currency_table_discarded_counterexample :
    process_native_page_tables [Inputs.titreRows, Inputs.totalRows] = [] ∧
    extract_tables_keep Inputs.totalRows = true := by
  constructor <;> decide

/-- Claim C2 (amended): `process_native_page` discards every detected
single-column table with at most 2 rows (and more than 1 row)
unconditionally, regardless of numeric/currency content — both the
`["Titre", "Sous-titre"]` table and the `"Total: 1500€"` table are
discarded from the page's tables.  The claimed content-sensitive rule is
implemented only by the uncalled helper `_extract_tables`, whose filter
does discard the `Titre` table and retain the `Total` table. -/
theorem c2_native_table_filter (rows : NativePDFProcessor.Rows) :
    (1 < rows.length → maxCols rows = 1 → rows.length ≤ 2 →
      process_native_page_tables [rows] = []) ∧
    process_native_page_tables [Inputs.titreRows] = [] ∧
    process_native_page_tables [Inputs.totalRows] = [] ∧
    extract_tables [Inputs.titreRows, Inputs.totalRows] = [Inputs.totalRows] := by
  refine ⟨fun h1 h2 h3 => ?_, by decide, by decide, by decide⟩
  simp [process_native_page_tables, h1, h2, h3]

/-- Witness for C2's amended theorem: the general discard clause applied
to the concrete `Titre` example. -/
theorem c2_native_table_filter_witness :
    process_native_page_tables [Inputs.titreRows] = [] := by
  exact (c2_native_table_filter Inputs.titreRows).1 (by decide) (by decide)
    (by decide)

end C2Claims

/-! ### Claim C5: the page classification decision rule -/

/-- Claim C5 (confirmed): `classify_page` returns `scanned` with
confidence 0.9 when the stripped text length is 0 and 0.7 when it is
positive but below the threshold; otherwise `native` with confidence 0.95
when character-level records are present and 0.6 when absent. -/
theorem c5_classify_page_decision_rule (t : Nat) (pg : PlumberPage) :
    ((pyStrip (pg.extract_text.getD "")).length = 0 → 0 < t →
      (classify_page t pg).classification = "scanned" ∧
      (classify_page t pg).confidence = 9/10) ∧
    (0 < (pyStrip (pg.extract_text.getD "")).length →
      (pyStrip (pg.extract_text.getD "")).length < t →
      (classify_page t pg).classification = "scanned" ∧
      (classify_page t pg).confidence = 7/10) ∧
    (t ≤ (pyStrip (pg.extract_text.getD "")).length → 0 < pg.chars →
      (classify_page t pg).classification = "native" ∧
      (classify_page t pg).confidence = 19/20) ∧
    (t ≤ (pyStrip (pg.extract_text.getD "")).length → pg.chars = 0 →
      (classify_page t pg).classification = "native" ∧
      (classify_page t pg).confidence = 3/5) := by
  refine ⟨fun ha hb => ?_, fun ha hb => ?_, fun ha hb => ?_, fun ha hb => ?_⟩ <;>
    simp only [classify_page] <;> split_ifs <;> simp_all <;> omega

/-- Witness for C5: the four decision branches evaluated at four concrete
pages with the default threshold 50. -/
theorem c5_classify_page_decision_rule_witness :
    (classify_page 50 pgEmptyText).classification = "scanned" ∧
    (classify_page 50 pgEmptyText).confidence = 9/10 ∧
    (classify_page 50 pgFewChars).classification = "scanned" ∧
    (classify_page 50 pgFewChars).confidence = 7/10 ∧
    (classify_page 50 pgNativeChars).classification = "native" ∧
    (classify_page 50 pgNativeChars).confidence = 19/20 ∧
    (classify_page 50 pgNativeNoChars).classification = "native" ∧
    (classify_page 50 pgNativeNoChars).confidence = 3/5 := by
  have h1 := (c5_classify_page_decision_rule 50 pgEmptyText).1
    (by decide) (by decide)
  have h2 := (c5_classify_page_decision_rule 50 pgFewChars).2.1
    (by decide) (by decide)
  have h3 := (c5_classify_page_decision_rule 50 pgNativeChars).2.2.1
    (by decide) (by decide)
  have h4 := (c5_classify_page_decision_rule 50 pgNativeNoChars).2.2.2
    (by decide) (by decide)
  exact ⟨h1.1, h1.2, h2.1, h2.2, h3.1, h3.2, h4.1, h4.2⟩

/-! ### Claim C8: per-page error isolation in `analyze_document` -/

theorem analyze_go_length (t k : Nat) (doc : List RawPage) :
    (analyze_go t k doc).length = doc.length := by
  induction doc generalizing k with
  | nil => rfl
  | cons pg rest ih => simp [analyze_go, ih]

theorem analyze_go_getD (t k i : Nat) (doc : List RawPage)
    (h : i < doc.length) :
    (analyze_go t k doc).getD i default =
      match (doc.getD i default).classify_raises with
      | some e => errorEntry (k + i) e
      | none => classify_page t (toPlumberPage (k + i) (doc.getD i default)) := by
  induction doc generalizing k i with
  | nil => simp at h
  | cons pg rest ih =>
    cases i with
    | zero => simp [analyze_go]
    | succ j =>
      have hj : j < rest.length := by simpa using h
      have := ih (k + 1) j hj
      simpa [analyze_go, Nat.add_assoc, Nat.add_comm 1 j] using this

/-- Counterexample for C8: a page whose probe raises `"boom"` yields an
entry whose `reason` key is absent — the exception message is stored under
the `error` key instead, so "the exception message as its reason" fails as
stated. -/
theorem c8_reason_key_counterexample :
    (analyze_document 50 [pgBoom, pgNativeRaw]).length = 2 ∧
    ((analyze_document 50 [pgBoom, pgNativeRaw]).getD 0 default).classification
        = "error" ∧
    ((analyze_document 50 [pgBoom, pgNativeRaw]).getD 0 default).confidence
        = 0 ∧
    ((analyze_document 50 [pgBoom, pgNativeRaw]).getD 0 default).error
        = some "boom" ∧
    ((analyze_document 50 [pgBoom, pgNativeRaw]).getD 0 default).reason
        ≠ some "boom" ∧
    ((analyze_document 50 [pgBoom, pgNativeRaw]).getD 1 default).classification
        = "native" := by
  decide

/-- Claim C8 (amended): `analyze_document` returns one entry per page, in
page order (`page_number = i + 1` for the i-th page), never aborting on a
single page's failure: a page whose classification raises yields an entry
with classification `error`, confidence 0 and the exception message stored
under the entry's `error` key (its `reason` key is absent), while every
other page is classified normally by `classify_page`. -/
theorem c8_analyze_document_isolation (t : Nat) (doc : List RawPage) :
    (analyze_document t doc).length = doc.length ∧
    ∀ i, i < doc.length →
      ((analyze_document t doc).getD i default).page_number = i + 1 ∧
      (∀ e, (doc.getD i default).classify_raises = some e →
        ((analyze_document t doc).getD i default).classification = "error" ∧
        ((analyze_document t doc).getD i default).confidence = 0 ∧
        ((analyze_document t doc).getD i default).error = some e ∧
        ((analyze_document t doc).getD i default).reason = none) ∧
      ((doc.getD i default).classify_raises = none →
        (analyze_document t doc).getD i default =
          classify_page t (toPlumberPage (i + 1) (doc.getD i default))) := by
  refine ⟨analyze_go_length t 1 doc, fun i hi => ?_⟩
  have h := analyze_go_getD t 1 i doc hi
  rw [Nat.add_comm 1 i] at h
  unfold analyze_document
  refine ⟨?_, ?_, ?_⟩
  · rw [h]
    cases hc : (doc.getD i default).classify_raises with
    | none =>
      simp only [hc, classify_page, toPlumberPage]
      split_ifs <;> rfl
    | some e => simp [hc, errorEntry]
  · intro e he
    rw [h, he]
    simp [errorEntry]
  · intro he
    rw [h, he]

/-- Witness for C8: the amended theorem applied to the concrete two-page
document whose first page's probe raises. -/
theorem c8_analyze_document_isolation_witness :
    (analyze_document 50 [pgBoom, pgNativeRaw]).length = 2 ∧
    ((analyze_document 50 [pgBoom, pgNativeRaw]).getD 0 default).error
        = some "boom" ∧
    (analyze_document 50 [pgBoom, pgNativeRaw]).getD 1 default =
      classify_page 50 (toPlumberPage 2 pgNativeRaw) := by
  have h := c8_analyze_document_isolation 50 [pgBoom, pgNativeRaw]
  have h0 := h.2 0 (by decide)
  have h1 := h.2 1 (by decide)
  exact ⟨h.1, (h0.2.1 "boom" rfl).2.2.1, h1.2.2 rfl⟩

/-! ### The orchestrator: shared lemmas for claims C4, C6, C7, C9 -/

section OrchestratorLemmas

open UnifiedDocumentProcessor

theorem write_results_length (f : Nat → PageResult) (order : List Nat)
    (init : List (Option PageResult)) :
    (write_results f order init).length = init.length := by
  induction order generalizing init with
  | nil => rfl
  | cons i rest ih =>
    have hstep : write_results f (i :: rest) init =
        write_results f rest (init.set i (some (f i))) := rfl
    rw [hstep, ih, List.length_set]

theorem write_results_getElem? (f : Nat → PageResult) (order : List Nat)
    (init : List (Option PageResult)) (j : Nat) :
    (write_results f order init)[j]? =
      if j ∈ order ∧ j < init.length then some (some (f j)) else init[j]? := by
  induction order generalizing init with
  | nil => simp [write_results]
  | cons i rest ih =>
    have hstep : write_results f (i :: rest) init =
        write_results f rest (init.set i (some (f i))) := rfl
    rw [hstep, ih, List.length_set]
    by_cases hmem : j ∈ rest
    · by_cases hj : j < init.length
      · simp [hmem, hj]
      · simp [hmem, hj, List.getElem?_set,
          List.getElem?_eq_none (le_of_not_lt hj)]
        omega
    · by_cases hij : j = i
      · subst hij
        by_cases hj : j < init.length <;>
          simp [hmem, hj, List.getElem?_set, List.getElem?_eq_none,
            le_of_not_lt]
      · simp [hmem, hij, List.getElem?_set, Ne.symm hij]

/-- Every completion order that schedules each of the `n` workers exactly
once produces the same final array: the pointwise image of the
classification list. -/
theorem process_pages_parallel_perm (o : Oracles) (pcs : List PDFAnalyzer.PageInfo)
    (order : List Nat) (h : order.Perm (List.range pcs.length)) :
    process_pages_parallel o pcs order =
      pcs.map (fun pc => some (process_single_page o pc)) := by
  apply List.ext_getElem?
  intro j
  rw [process_pages_parallel, write_results_getElem?]
  have hmem : j ∈ order ↔ j < pcs.length := by
    rw [h.mem_iff, List.mem_range]
  by_cases hj : j < pcs.length
  · have hg : pcs.getD j default = pcs[j] := List.getD_eq_getElem pcs default hj
    simp [hmem, hj, hg, List.getElem?_map, List.getElem?_eq_getElem hj]
  · have hlen : pcs.length ≤ j := le_of_not_lt hj
    simp [hmem, hj, List.getElem?_eq_none hlen, List.getElem?_eq_none]
    exact hlen

theorem process_single_page_page_number (o : Oracles)
    (pc : PDFAnalyzer.PageInfo) :
    (process_single_page o pc).page_number = pc.page_number := by
  simp only [process_single_page, process_scanned_page, process_native_page]
  split_ifs <;> first
    | rfl
    | (split <;> first | rfl | (split_ifs <;> rfl))

theorem analyze_entry_page_number (t k : Nat) (pg : PDFAnalyzer.RawPage) :
    (match pg.classify_raises with
      | some e => PDFAnalyzer.errorEntry k e
      | none => PDFAnalyzer.classify_page t
          (PDFAnalyzer.toPlumberPage k pg)).page_number = k := by
  cases pg.classify_raises with
  | some e => rfl
  | none =>
    simp only [PDFAnalyzer.classify_page, PDFAnalyzer.toPlumberPage]
    split_ifs <;> rfl

theorem analyze_go_map_page_number (t k : Nat) (doc : List PDFAnalyzer.RawPage) :
    (PDFAnalyzer.analyze_go t k doc).map (fun pc => pc.page_number) =
      List.range' k doc.length := by
  induction doc generalizing k with
  | nil => rfl
  | cons pg rest ih =>
    rw [PDFAnalyzer.analyze_go, List.map_cons,
      analyze_entry_page_number t k pg, ih, List.length_cons,
      List.range'_succ]

/-- Under any complete schedule, the non-`None` results of the parallel
phase are exactly the per-page images of the classification list. -/
theorem pages_eq_map (raw : List PDFAnalyzer.RawPage) (o : Oracles)
    (order : List Nat) (h : order.Perm (List.range raw.length)) :
    (process_pages_parallel o
        (PDFAnalyzer.analyze_document PDFAnalyzer.default_min_text_threshold
          raw) order).filterMap id =
      (PDFAnalyzer.analyze_document PDFAnalyzer.default_min_text_threshold
          raw).map (process_single_page o) := by
  have hlen : (PDFAnalyzer.analyze_document
      PDFAnalyzer.default_min_text_threshold raw).length = raw.length :=
    analyze_go_length _ 1 raw
  have hperm : order.Perm (List.range (PDFAnalyzer.analyze_document
      PDFAnalyzer.default_min_text_threshold raw).length) := by
    rw [hlen]; exact h
  rw [process_pages_parallel_perm o _ order hperm, List.filterMap_map]
  have hco : (id ∘ fun pc => some (process_single_page o pc)) =
      some ∘ process_single_page o := rfl
  rw [hco, List.filterMap_eq_map]

end OrchestratorLemmas

/-! ### Claim C4: page list matches the summary -/

section C4Claims

open UnifiedDocumentProcessor PDFAnalyzer

/-- Claim C4 (confirmed): for every document and any complete worker
schedule, the returned results satisfy `len(pages) =
summary.total_pages`, and the `page_number` values of `pages` are exactly
`1..total_pages` in ascending order — including the degenerate branches
where classification raises or the document is empty (`pages = []`,
`total_pages = 0`). -/
theorem c4_pages_match_summary (pdf_path : String)
    (doc : Except String (List RawPage)) (o : Oracles) (order : List Nat)
    (h : order.Perm (List.range (docLength doc))) :
    ((process_document pdf_path doc o order).result.pages.length =
      (process_document pdf_path doc o order).result.summary.total_pages) ∧
    ((process_document pdf_path doc o order).result.pages.map
        (fun p => p.page_number) =
      List.range' 1
        ((process_document pdf_path doc o order).result.summary.total_pages)) := by
  cases doc with
  | error e => simp [process_document]
  | ok raw =>
    by_cases hn : (analyze_document default_min_text_threshold raw).length = 0
    · simp [process_document, hn]
    · have hpages := pages_eq_map raw o order h
      have hlen : (analyze_document default_min_text_threshold raw).length =
          raw.length := analyze_go_length _ 1 raw
      simp only [process_document, hn, ite_false, hpages]
      constructor
      · simp
      · rw [List.map_map]
        have hcg : List.map ((fun p => p.page_number) ∘ process_single_page o)
              (analyze_document default_min_text_threshold raw) =
            List.map (fun pc => pc.page_number)
              (analyze_document default_min_text_threshold raw) :=
          List.map_congr_left fun pc _ => process_single_page_page_number o pc
        rw [hcg, hlen]
        exact analyze_go_map_page_number default_min_text_threshold 1 raw

/-- Witness for C4: a two-page document processed with the reversed
completion order still reports pages `[1, 2]`. -/
theorem c4_pages_match_summary_witness :
    (process_document "d.pdf" (Except.ok [pgNativeRaw, pgScanRaw])
        mixedOracles [1, 0]).result.pages.map (fun p => p.page_number) =
      [1, 2] := by
  have h := c4_pages_match_summary "d.pdf"
    (Except.ok [pgNativeRaw, pgScanRaw]) mixedOracles [1, 0] (by decide)
  exact h.2.trans (by decide)

end C4Claims

/-! ### Claim C9: determinism of the bounded parallel extraction -/

section C9Claims

open UnifiedDocumentProcessor PDFAnalyzer

/-- Claim C9 (confirmed): with the bounded pool (`max_workers = min(5,
n)`), a run over `N` classified pages produces exactly `N` results; the
final array equals the pointwise function of the per-page inputs for
EVERY completion order (each worker writes only its own pre-allocated
index), and a page whose extractor call raises becomes an error-status
entry at its own index with empty content, with every sibling entry
unchanged (they are pointwise images of their own inputs). -/
theorem c9_parallel_write_determinism (o : Oracles)
    (pcs : List PageInfo) (order order2 : List Nat)
    (h : order.Perm (List.range pcs.length))
    (h2 : order2.Perm (List.range pcs.length)) :
    (process_pages_parallel o pcs order).length = pcs.length ∧
    process_pages_parallel o pcs order =
      process_pages_parallel o pcs order2 ∧
    process_pages_parallel o pcs order =
      pcs.map (fun pc => some (process_single_page o pc)) ∧
    max_workers pcs.length = min 5 pcs.length ∧
    (∀ i, i < pcs.length →
      (process_pages_parallel o pcs order).getD i none =
        some (process_single_page o (pcs.getD i default))) ∧
    (∀ pc msg, pc.classification = "scanned" →
      o.scanned_call pc.page_number = .raise msg →
      (process_single_page o pc).status = some "error" ∧
      (process_single_page o pc).error = some msg ∧
      (process_single_page o pc).content = "") ∧
    (∀ pc msg, pc.classification = "native" →
      o.native_call pc.page_number = .raise msg →
      (process_single_page o pc).status = some "error" ∧
      (process_single_page o pc).error = some msg ∧
      (process_single_page o pc).content = "") := by
  have hmap := process_pages_parallel_perm o pcs order h
  have hmap2 := process_pages_parallel_perm o pcs order2 h2
  refine ⟨?_, hmap.trans hmap2.symm, hmap, rfl, ?_, ?_, ?_⟩
  · rw [hmap]; simp
  · intro i hi
    rw [hmap]
    simp [List.getD_eq_getElem?_getD, List.getElem?_map,
      List.getElem?_eq_getElem hi, List.getD_eq_getElem pcs default hi]
  · intro pc msg hcls hcall
    simp [process_single_page, process_scanned_page, hcls, hcall]
  · intro pc msg hcls hcall
    by_cases hsc : pc.classification = "scanned"
    · rw [hcls] at hsc; exact absurd hsc (by decide)
    · simp [process_single_page, process_native_page, hcls, hsc, hcall]

/-- Witness for C9: two completion orders of a two-page run coincide, and
the page whose vision call raises carries its own error entry. -/
theorem c9_parallel_write_determinism_witness :
    process_pages_parallel mixedOracles [pcScanInfo, pcNativeInfo] [1, 0] =
      process_pages_parallel mixedOracles [pcScanInfo, pcNativeInfo] [0, 1] ∧
    (process_pages_parallel mixedOracles [pcScanInfo, pcNativeInfo]
        [1, 0]).getD 0 none =
      some (process_single_page mixedOracles pcScanInfo) ∧
    (process_single_page mixedOracles pcScanInfo).status = some "error" ∧
    (process_single_page mixedOracles pcScanInfo).error =
      some "network down" := by
  have h := c9_parallel_write_determinism mixedOracles
    [pcScanInfo, pcNativeInfo] [1, 0] [0, 1] (by decide) (by decide)
  have h5 := h.2.2.2.2.1 0 (by decide)
  have h6 := h.2.2.2.2.2.1 pcScanInfo "network down" rfl rfl
  exact ⟨h.2.1, h5, h6.1, h6.2.1⟩

end C9Claims

/-! ### Claim C7: document status semantics -/

section C7Claims

open UnifiedDocumentProcessor PDFAnalyzer

/-- Counterexample for C7: a stamping failure does NOT yield a
`DocumentResult` with status `error` — `process_pdf` has no `try` around
the stamping call, so the exception propagates and no results dict
exists; and a zero-page document yields status `error` with populated
errors even though neither stamping nor classification raised (the
worker-pool constructor rejects `max_workers = 0`). -/
theorem c7_stage_failure_counterexample :
    DocumentProcessor.process_pdf "orig.pdf" (Except.error "disk full")
        (Except.ok [pgNativeRaw]) mixedOracles [0] =
      Except.error "disk full" ∧
    (process_document "d.pdf" (Except.ok ([] : List RawPage)) mixedOracles
        []).result.status = "error" ∧
    (process_document "d.pdf" (Except.ok ([] : List RawPage)) mixedOracles
        []).result.errors = ["max_workers must be greater than 0"] ∧
    (process_document "d.pdf" (Except.ok ([] : List RawPage)) mixedOracles
        []).result.pages = [] := by
  refine ⟨rfl, ?_, ?_, ?_⟩ <;> decide

/-- Claim C7 (amended): the status is `success` whenever page processing
started (the classification stage returned a non-empty page list), even
if every page errored; status `error` with populated errors and no pages
occurs exactly when classification raises or the page list is empty; a
stamping failure propagates out of `process_pdf` as an exception and
produces no `DocumentResult` at all. -/
theorem c7_status_semantics (path : String) (stamp : Except String String)
    (doc : Except String (List RawPage)) (o : Oracles) (order : List Nat) :
    (∀ e, stamp = Except.error e →
      DocumentProcessor.process_pdf path stamp doc o order =
        Except.error e) ∧
    (∀ raw, doc = Except.ok raw → 0 < raw.length →
      (process_document path doc o order).result.status = "success") ∧
    (∀ e, doc = Except.error e →
      (process_document path doc o order).result.status = "error" ∧
      (process_document path doc o order).result.errors = [e] ∧
      (process_document path doc o order).result.pages = []) ∧
    (∀ raw, doc = Except.ok raw → raw.length = 0 →
      (process_document path doc o order).result.status = "error" ∧
      (process_document path doc o order).result.errors =
        ["max_workers must be greater than 0"] ∧
      (process_document path doc o order).result.pages = []) := by
  refine ⟨?_, ?_, ?_, ?_⟩
  · intro e he; subst he; rfl
  · intro raw hd hpos; subst hd
    have hne : ¬ (analyze_document default_min_text_threshold raw).length
        = 0 := by
      rw [show (analyze_document default_min_text_threshold raw).length =
        raw.length from analyze_go_length _ 1 raw]
      omega
    simp [process_document, hne]
  · intro e he; subst he
    exact ⟨rfl, rfl, rfl⟩
  · intro raw hd h0; subst hd
    have hz : (analyze_document default_min_text_threshold raw).length
        = 0 := by
      rw [show (analyze_document default_min_text_threshold raw).length =
        raw.length from analyze_go_length _ 1 raw]
      omega
    simp [process_document, hz]

/-- Witness for C7: a two-page document (one page's vision call raises)
still reports `success`, and a failing stamp propagates. -/
theorem c7_status_semantics_witness :
    (process_document "n.pdf" (Except.ok [pgNativeRaw, pgScanRaw])
        mixedOracles [0, 1]).result.status = "success" ∧
    DocumentProcessor.process_pdf "o.pdf" (Except.error "boom")
        (Except.ok [pgNativeRaw]) mixedOracles [0] = Except.error "boom" := by
  have h1 := c7_status_semantics "n.pdf" (Except.ok "n.pdf")
    (Except.ok [pgNativeRaw, pgScanRaw]) mixedOracles [0, 1]
  have h2 := c7_status_semantics "o.pdf" (Except.error "boom")
    (Except.ok [pgNativeRaw]) mixedOracles [0]
  have hpos : 0 < ([pgNativeRaw, pgScanRaw] : List RawPage).length := by simp
  exact ⟨h1.2.1 [pgNativeRaw, pgScanRaw] rfl hpos, h2.1 "boom" rfl⟩

end C7Claims

/-! ### Claim C6: the progress fractions -/

section C6Claims

open UnifiedDocumentProcessor PDFAnalyzer

theorem page_progress_le (n k : Nat) : page_progress n k ≤ 9/10 :=
  min_le_right _ _

theorem page_progress_ge (n k : Nat) : 1/10 ≤ page_progress n k := by
  apply le_min
  · have h0 : (0:ℚ) ≤ (4/5) * (((min k n : Nat) : ℚ) / (n : ℚ)) := by
      positivity
    linarith
  · norm_num

theorem page_progress_mono (n k : Nat) :
    page_progress n k ≤ page_progress n (k + 1) := by
  unfold page_progress
  apply min_le_min _ le_rfl
  have hle : ((min k n : Nat):ℚ) ≤ ((min (k+1) n : Nat):ℚ) := by
    have : min k n ≤ min (k+1) n := by omega
    exact_mod_cast this
  have hn : (0:ℚ) ≤ (n : ℚ) := by positivity
  have := div_le_div_of_nonneg_right hle hn
  linarith

theorem page_progress_one (n : Nat) (h : 1 ≤ n) :
    page_progress n 1 = min (1/10 + (4/5) * (1 / (n : ℚ))) (9/10) := by
  unfold page_progress
  rw [min_eq_left h]
  norm_num

theorem page_progress_one_ge (n : Nat) (h1 : 1 ≤ n) (h2 : n ≤ 16) :
    3/20 ≤ page_progress n 1 := by
  rw [page_progress_one n h1]
  apply le_min
  · have hn : (0:ℚ) < (n : ℚ) := by exact_mod_cast h1
    have h16 : ((n : ℚ)) ≤ 16 := by exact_mod_cast h2
    have hinv : (1:ℚ)/16 ≤ 1/(n:ℚ) :=
      div_le_div_of_nonneg_left (by norm_num) hn h16
    linarith
  · norm_num

theorem page_progress_one_lt (n : Nat) (h : 17 ≤ n) :
    page_progress n 1 < 3/20 := by
  have h1 : 1 ≤ n := le_trans (by norm_num) h
  rw [page_progress_one n h1]
  have hn : (0:ℚ) < (n : ℚ) := by exact_mod_cast h1
  have h17 : (17:ℚ) ≤ (n : ℚ) := by exact_mod_cast h
  have hinv : (1:ℚ)/(n:ℚ) ≤ 1/17 :=
    div_le_div_of_nonneg_left (by norm_num) (by norm_num) h17
  calc min (1/10 + (4/5) * (1 / (n : ℚ))) (9/10)
      ≤ 1/10 + (4/5) * (1 / (n : ℚ)) := min_le_left _ _
    _ ≤ 1/10 + (4/5) * (1/17) := by linarith
    _ < 3/20 := by norm_num

theorem chain_page_seg (n : Nat) :
    List.Chain' (· ≤ ·)
      ((List.range n).map fun j => page_progress n (j+1)) := by
  rw [List.chain'_map]
  cases n with
  | zero => simp
  | succ m =>
    rw [List.chain'_range_succ]
    intro i _
    exact page_progress_mono (m+1) (i+1)

theorem chain_seg_tail (n : Nat) :
    List.Chain' (· ≤ ·)
      (((List.range n).map fun j => page_progress n (j+1)) ++
        [19/20, 1]) := by
  rw [List.chain'_append]
  refine ⟨chain_page_seg n, by simp [List.chain'_cons]; norm_num, ?_⟩
  intro x hx y hy
  simp only [List.head?] at hy
  obtain rfl : y = 19/20 := by simpa using hy.symm
  obtain ⟨hne, rfl⟩ := List.mem_getLast?_eq_getLast hx
  have hxm := List.getLast_mem hne
  obtain ⟨j, _, hj⟩ := List.mem_map.mp hxm
  rw [← hj]
  calc page_progress n (j+1) ≤ 9/10 := page_progress_le n (j+1)
    _ ≤ 19/20 := by norm_num

theorem dropLast_pair (l : List ℚ) (a b : ℚ) :
    (l ++ [a, b]).dropLast = l ++ [a] := by simp

theorem page_progress_17_1 : page_progress 17 1 = 5/34 := by
  unfold page_progress
  rw [show ((min 1 17 : Nat):ℚ) = 1 by norm_num]
  rw [min_eq_left (by norm_num)]
  norm_num

/-- Counterexample for C6: on a 17-page document the stage report `0.15`
is followed by the first page-completion report `0.1 + 0.8/17 = 5/34 <
0.15`, so consecutive progress fractions DECREASE. -/
theorem c6_progress_regression_counterexample :
    (process_document "d.pdf" (Except.ok (List.replicate 17 pgNativeRaw))
        mixedOracles (List.range 17)).progress.getD 1 0 = 3/20 ∧
    (process_document "d.pdf" (Except.ok (List.replicate 17 pgNativeRaw))
        mixedOracles (List.range 17)).progress.getD 2 0 = 5/34 ∧
    (5/34 : ℚ) < 3/20 := by
  have hlen17 : (analyze_document default_min_text_threshold
      (List.replicate 17 pgNativeRaw)).length = 17 := by
    rw [show (analyze_document default_min_text_threshold
        (List.replicate 17 pgNativeRaw)).length =
      (List.replicate 17 pgNativeRaw).length from
        analyze_go_length default_min_text_threshold 1 _]
    simp
  have hn : ¬ (analyze_document default_min_text_threshold
      (List.replicate 17 pgNativeRaw)).length = 0 := by
    rw [hlen17]; norm_num
  have hsh : (process_document "d.pdf"
      (Except.ok (List.replicate 17 pgNativeRaw)) mixedOracles
      (List.range 17)).progress =
      [1/10, 3/20] ++
        ((List.range (analyze_document default_min_text_threshold
            (List.replicate 17 pgNativeRaw)).length).map
          fun j => page_progress (analyze_document default_min_text_threshold
            (List.replicate 17 pgNativeRaw)).length (j+1)) ++
        [19/20, 1] := by
    simp only [process_document, hn, ite_false]
  rw [hsh, hlen17]
  refine ⟨rfl, ?_, by norm_num⟩
  rw [show (17 : Nat) = 16 + 1 from rfl, List.range_succ_eq_map]
  simp only [List.map_cons, List.cons_append, List.append_assoc]
  show page_progress 17 (0 + 1) = 5 / 34
  rw [show 0 + 1 = 1 from rfl, page_progress_17_1]

/-- Claim C6 (amended): every reported fraction lies in `[0,1]`, every
fraction before the final one is strictly below `1`, and the sequence is
non-decreasing for documents of at most 16 pages; from the third report
onwards it is always non-decreasing, but for documents of 17 or more
pages the first page-completion report (`0.1 + 0.8/n`) is strictly BELOW
the preceding `0.15` stage report — the one regression the code
exhibits. -/
theorem c6_progress_amended (path : String)
    (doc : Except String (List RawPage)) (o : Oracles) (order : List Nat) :
    (∀ q ∈ (process_document path doc o order).progress, 0 ≤ q ∧ q ≤ 1) ∧
    (∀ q ∈ (process_document path doc o order).progress.dropLast, q < 1) ∧
    (docLength doc ≤ 16 →
      List.Chain' (· ≤ ·) (process_document path doc o order).progress) ∧
    List.Chain' (· ≤ ·)
      ((process_document path doc o order).progress.drop 2) ∧
    (∀ raw, doc = Except.ok raw → 17 ≤ raw.length →
      (process_document path doc o order).progress.getD 1 0 = 3/20 ∧
      (process_document path doc o order).progress.getD 2 0 =
        page_progress raw.length 1 ∧
      (process_document path doc o order).progress.getD 2 0 <
        (process_document path doc o order).progress.getD 1 0) := by
  cases doc with
  | error e =>
    refine ⟨?_, ?_, ?_, ?_, ?_⟩
    · intro q hq
      simp [process_document] at hq
      subst hq; norm_num
    · intro q hq
      simp [process_document] at hq
    · intro _
      simp [process_document]
    · simp [process_document]
    · intro raw hd h17
      simp at hd
  | ok raw =>
    have hlen : (analyze_document default_min_text_threshold raw).length =
        raw.length := analyze_go_length _ 1 raw
    by_cases hn : (analyze_document default_min_text_threshold raw).length = 0
    · have hz : (process_document path (.ok raw) o order).progress =
          [1/10, 3/20] := by
        simp [process_document, hn]
      have hlen0 : raw.length = 0 := by rw [← hlen]; exact hn
      refine ⟨?_, ?_, ?_, ?_, ?_⟩
      · intro q hq
        rw [hz] at hq
        simp at hq
        rcases hq with rfl | rfl <;> norm_num
      · intro q hq
        rw [hz] at hq
        simp at hq
        subst hq; norm_num
      · intro _
        rw [hz]
        simp [List.chain'_cons]
        norm_num
      · rw [hz]
        simp
      · intro raw' hd h17
        injection hd with h
        subst h
        omega
    · have hsh : (process_document path (.ok raw) o order).progress =
          [1/10, 3/20] ++
            ((List.range (analyze_document default_min_text_threshold
                raw).length).map
              fun j => page_progress
                (analyze_document default_min_text_threshold raw).length
                (j+1)) ++
            [19/20, 1] := by
        simp [process_document, hn]
      obtain ⟨m, hm⟩ : ∃ m,
          (analyze_document default_min_text_threshold raw).length = m + 1 :=
        ⟨_, (Nat.succ_pred_eq_of_pos (Nat.pos_of_ne_zero hn)).symm⟩
      refine ⟨?_, ?_, ?_, ?_, ?_⟩
      · intro q hq
        rw [hsh] at hq
        simp only [List.mem_append, List.mem_map, List.mem_cons,
          List.not_mem_nil, or_false, List.mem_singleton] at hq
        rcases hq with ((rfl | rfl) | ⟨j, _, rfl⟩) | (rfl | rfl)
        · norm_num
        · norm_num
        · constructor
          · linarith [page_progress_ge
              (analyze_document default_min_text_threshold raw).length (j+1)]
          · linarith [page_progress_le
              (analyze_document default_min_text_threshold raw).length (j+1)]
        · norm_num
        · norm_num
      · intro q hq
        rw [hsh] at hq
        rw [dropLast_pair] at hq
        simp only [List.mem_append, List.mem_map, List.mem_cons,
          List.not_mem_nil, or_false, List.mem_singleton] at hq
        rcases hq with ((rfl | rfl) | ⟨j, _, rfl⟩) | rfl
        · norm_num
        · norm_num
        · calc page_progress _ (j+1) ≤ 9/10 := page_progress_le _ _
            _ < 1 := by norm_num
        · norm_num
      · intro h16
        have h16' : (analyze_document default_min_text_threshold raw).length
            ≤ 16 := by
          rw [hlen]; exact h16
        rw [hsh, List.append_assoc]
        rw [show ([1/10, 3/20] : List ℚ) ++
            (((List.range (analyze_document default_min_text_threshold
                raw).length).map
              fun j => page_progress
                (analyze_document default_min_text_threshold raw).length
                (j+1)) ++
            [19/20, 1]) =
          (1/10 : ℚ) :: (3/20 : ℚ) ::
            (((List.range (analyze_document default_min_text_threshold
                raw).length).map
              fun j => page_progress
                (analyze_document default_min_text_threshold raw).length
                (j+1)) ++
            [19/20, 1]) from rfl]
        rw [List.chain'_cons, List.chain'_cons']
        refine ⟨by norm_num, ?_, chain_seg_tail _⟩
        intro y hy
        rw [hm, List.range_succ_eq_map] at hy
        simp only [List.map_cons, List.cons_append, List.head?_cons,
          Option.mem_def, Option.some.injEq] at hy
        rw [← hy]
        have h16m : m + 1 ≤ 16 := by rw [hm] at h16'; exact h16'
        exact page_progress_one_ge _ (by omega) h16m
      · rw [hsh, List.append_assoc]
        exact chain_seg_tail _
      · intro raw' hd h17
        injection hd with h
        subst h
        have h17' : 17 ≤ (analyze_document default_min_text_threshold
            raw).length := by
          rw [hlen]; exact h17
        rw [hsh]
        rw [hm, List.range_succ_eq_map]
        refine ⟨rfl, ?_, ?_⟩
        · simp only [List.map_cons, List.cons_append, List.append_assoc]
          rw [← hlen, hm]
          rfl
        · simp only [List.map_cons, List.cons_append, List.append_assoc]
          have := page_progress_one_lt
            (analyze_document default_min_text_threshold raw).length h17'
          rw [hm] at this
          simpa using this

/-- Witness for C6: the amended theorem applied to the 17-page document
exhibits the regression concretely. -/
theorem c6_progress_amended_witness :
    (process_document "d.pdf" (Except.ok (List.replicate 17 pgNativeRaw))
        mixedOracles (List.range 17)).progress.getD 2 0 <
      (process_document "d.pdf" (Except.ok (List.replicate 17 pgNativeRaw))
        mixedOracles (List.range 17)).progress.getD 1 0 := by
  have h := c6_progress_amended "d.pdf"
    (Except.ok (List.replicate 17 pgNativeRaw)) mixedOracles
    (List.range 17)
  exact (h.2.2.2.2 (List.replicate 17 pgNativeRaw) rfl (by simp)).2.2

end C6Claims

/-! ### Claim C10: chunk metadata from the full-concatenation pipeline -/

section C10Claims

open SimpleChunker UnifiedDocumentProcessor

/-- Counterexample for C10: a chunk whose 50-character text head is NOT
found in the concatenated text does not necessarily fall back to the
first successful page — the code estimates `start_token * 3` and maps the
chunk to whichever page overlaps that estimate.  Here chunk 1 decodes to
`"XX"` (absent from `"aaaa bbbb"`), the estimate lands inside page 2's
character range, and the chunk is attached to page 2, not page 1. -/
theorem c10_prefix_fallback_counterexample :
    (((process_with_full_concatenation 2 0 cxEncode cxDecode 10 "doc.pdf"
        [cxPageA, cxPageB]).getD []).getD 1 default).text = "XX" ∧
    strFind "aaaa bbbb" "XX" = none ∧
    (pages_content [cxPageA, cxPageB]).map (fun p => p.page_number) =
      [1, 2] ∧
    (((process_with_full_concatenation 2 0 cxEncode cxDecode 10 "doc.pdf"
        [cxPageA, cxPageB]).getD []).getD 1 default).page_number = some 2 ∧
    (((process_with_full_concatenation 2 0 cxEncode cxDecode 10 "doc.pdf"
        [cxPageA, cxPageB]).getD []).getD 1 default).page_number ≠
      some 1 := by
  refine ⟨?_, ?_, ?_, ?_, ?_⟩ <;> decide

theorem page_mappings_go_numbers (k : Nat) (ps : List PageContentInfo) :
    (page_mappings_go k ps).map (fun m => m.page_number) =
      ps.map (fun p => p.page_number) := by
  induction ps generalizing k with
  | nil => rfl
  | cons p rest ih => simp [page_mappings_go, ih]

theorem mem_page_mappings (ps : List PageContentInfo) (m : PageMapping)
    (h : m ∈ page_mappings ps) :
    ∃ p ∈ ps, m.page_number = p.page_number := by
  have hmem : m.page_number ∈
      (page_mappings ps).map (fun m => m.page_number) :=
    List.mem_map_of_mem _ h
  rw [page_mappings, page_mappings_go_numbers] at hmem
  obtain ⟨p, hp, he⟩ := List.mem_map.mp hmem
  exact ⟨p, hp, he.symm⟩

theorem locate_chunk_fields (full : String) (ps : List PageContentInfo)
    (hps : ps ≠ []) (c0 : Chunk) :
    (locate_chunk full ps c0).page_number.isSome ∧
    (locate_chunk full ps c0).page_type.isSome ∧
    (locate_chunk full ps c0).processing_method.isSome ∧
    (locate_chunk full ps c0).is_cross_page.isSome ∧
    (locate_chunk full ps c0).paragraph_number =
      some ((locate_chunk full ps c0).chunk_index + 1) ∧
    ∃ p ∈ ps, (locate_chunk full ps c0).page_number = some p.page_number := by
  simp only [locate_chunk]
  split
  next primary rest heq =>
    have hpm : primary ∈ page_mappings ps := by
      have hmem : primary ∈ primary :: rest := List.mem_cons_self _ _
      rw [← heq] at hmem
      exact List.mem_of_mem_filter hmem
    obtain ⟨p, hp, hpe⟩ := mem_page_mappings ps primary hpm
    split_ifs <;>
      exact ⟨rfl, rfl, rfl, rfl, rfl, ⟨p, hp, by simp [hpe]⟩⟩
  next heq =>
    cases ps with
    | nil => exact absurd rfl hps
    | cons p0 rest =>
      exact ⟨rfl, rfl, rfl, rfl, rfl, ⟨p0, List.mem_cons_self p0 rest, rfl⟩⟩

/-- Claim C10 (amended): every chunk returned by
`process_document_results` has its `page_number`, `page_type`,
`processing_method`, `is_cross_page` and `paragraph_number` fields set,
with `paragraph_number = chunk_index + 1`; every chunk's `page_number` is
the page number of one of the successfully extracted non-empty pages (the
first mapping whose character range overlaps the located — or, when the
text head is not found, the `start_token * 3`-estimated — span, falling
back to the first successful page only when NO mapping overlaps); pages
without status `success` or with empty content contribute neither text
nor offset entries. -/
theorem c10_chunk_page_metadata (cs ov : Nat) (encode : String → List Nat)
    (decode : List Nat → String) (fuel : Nat) (name : String)
    (pages : List PageResult) (chunks : List Chunk)
    (hr : process_document_results cs ov encode decode fuel name pages =
      some chunks) :
    (∀ c ∈ chunks,
      c.page_number.isSome ∧ c.page_type.isSome ∧
      c.processing_method.isSome ∧ c.is_cross_page.isSome ∧
      c.paragraph_number = some (c.chunk_index + 1) ∧
      ∃ p ∈ pages_content pages, c.page_number = some p.page_number) ∧
    (∀ p ∈ pages_content pages, ∃ q ∈ pages,
      q.status = some "success" ∧ q.content ≠ "" ∧
      p.page_number = q.page_number ∧ p.content = pyStrip q.content) ∧
    (page_mappings (pages_content pages)).map (fun m => m.page_number) =
      (pages_content pages).map (fun p => p.page_number) := by
  refine ⟨?_, ?_, page_mappings_go_numbers 0 _⟩
  · intro c hc
    unfold process_document_results process_with_full_concatenation at hr
    by_cases hps : (pages_content pages).isEmpty
    · simp only [hps, if_true, ite_true, Option.some.injEq] at hr
      subst hr
      simp at hc
    · simp only [hps, if_false, ite_false] at hr
      obtain ⟨l, hl, rfl⟩ := Option.map_eq_some'.mp hr
      obtain ⟨c0, hc0, rfl⟩ := List.mem_map.mp hc
      have hne : pages_content pages ≠ [] := by
        simpa [List.isEmpty_iff] using hps
      exact locate_chunk_fields _ _ hne c0
  · intro p hp
    rw [pages_content] at hp
    obtain ⟨q, hq, hf⟩ := List.mem_filterMap.mp hp
    simp only at hf
    split_ifs at hf with h1 h2
    · injection hf with hinj
      subst hinj
      exact ⟨q, hq, h1.1, h1.2, rfl, rfl⟩

/-- Witness for C10: the amended theorem applied to the concrete two-page
pipeline run. -/
theorem c10_chunk_page_metadata_witness :
    (((process_with_full_concatenation 2 0 cxEncode cxDecode 10 "doc.pdf"
        [cxPageA, cxPageB]).getD []).getD 0 default).page_number.isSome
      = true ∧
    (((process_with_full_concatenation 2 0 cxEncode cxDecode 10 "doc.pdf"
        [cxPageA, cxPageB]).getD []).getD 0 default).paragraph_number =
      some ((((process_with_full_concatenation 2 0 cxEncode cxDecode 10
        "doc.pdf" [cxPageA, cxPageB]).getD []).getD 0
          default).chunk_index + 1) := by
  have h := c10_chunk_page_metadata 2 0 cxEncode cxDecode 10 "doc.pdf"
    [cxPageA, cxPageB]
    ((process_with_full_concatenation 2 0 cxEncode cxDecode 10 "doc.pdf"
      [cxPageA, cxPageB]).getD []) (by decide)
  have hm := h.1 (((process_with_full_concatenation 2 0 cxEncode cxDecode 10
    "doc.pdf" [cxPageA, cxPageB]).getD []).getD 0 default) (by decide)
  exact ⟨hm.1, hm.2.2.2.2.1⟩

end C10Claims

end Theorems

end RagFirst
